import Mathlib

/-!
Verification development for the `kicad.pcbnew.board` wrapper
(`src/kicad/pcbnew/board.py`).

The wrapper delegates to the native PCB engine (`pcbnew`).  The engine, the
`kicad.units` constant and the `kicad.pcbnew.module` wrapper are external to
the given sources, so their behaviour is modelled from the spec (each such
definition carries a doc comment saying so).  Python floats are modelled as
exact rationals; machine state is passed explicitly.
-/

namespace KicadPcb

/-- Native engine module (`pcbnew` MODULE): a placed footprint with a
reference designator and a position. -/
structure MODULE where
  reference : String
  pos : ℚ × ℚ
deriving DecidableEq, Repr

/-- Native engine track segment, as built by `Track(width, start, end, layer)`. -/
structure TRACK where
  width : ℚ
  start : ℚ × ℚ
  end_ : ℚ × ℚ
  layer : String
deriving DecidableEq, Repr

/-- Native engine graphic segment, as built by
`drawing.Segment(start, end, layer, width)`. -/
structure SEGMENT where
  start : ℚ × ℚ
  end_ : ℚ × ℚ
  layer : String
  width : ℚ
deriving DecidableEq, Repr

/-- Native engine design settings: current track width, via size and via
drill, all in engine-native internal units. -/
structure DesignSettings where
  currentTrackWidth : ℚ
  currentViaSize : ℚ
  currentViaDrill : ℚ
deriving DecidableEq, Repr

/-- Native engine board (`pcbnew.BOARD`): owns modules (in placement order),
tracks, drawings and the design settings. -/
structure BOARD where
  modules : List MODULE
  tracks : List TRACK
  drawings : List SEGMENT
  settings : DesignSettings
deriving DecidableEq, Repr

/-- Modelled from the spec: the native engine's `FindModuleByReference`
returns the module carrying the given reference, or nothing when absent
("the matching Module ... fails when no module has that reference"). -/
def BOARD.FindModuleByReference (b : BOARD) (ref : String) : Option MODULE :=
  b.modules.find? (fun m => m.reference == ref)

/-- Modelled from the spec: the native engine's `GetModules` exposes the
modules currently on the board in the board's internal placement order. -/
def BOARD.GetModules (b : BOARD) : List MODULE :=
  b.modules

/-- Modelled from the spec: placing a module on the board appends it in
placement order (used by `Board.add_module`, whose `module.Module`
constructor is absent from the given sources). -/
def BOARD.placeModule (b : BOARD) (m : MODULE) : BOARD :=
  { b with modules := b.modules ++ [m] }

/-- Modelled from the spec: the wrapped-module value type produced by
`module.Module.wrap` (module.py is absent from the given sources); it holds
the opaque native handle. -/
structure Module where
  native : MODULE
deriving DecidableEq, Repr

/-- Modelled from the spec: `module.Module.wrap` wraps a native handle. -/
def Module.wrap (m : MODULE) : Module := ⟨m⟩

/-- Modelled from the spec: a wrapped Module exposes its reference, taken
from the native handle. -/
def Module.reference (m : Module) : String := m.native.reference

/-- Modelled from the spec (kicad.units is absent from the given sources):
the internal-units-per-millimeter conversion constant `DEFAULT_UNIT_IUS`. -/
def DEFAULT_UNIT_IUS : ℚ := 1000000

namespace ModuleList

/-- `_ModuleList.__getitem__`: look the reference up through the engine,
wrap the hit, otherwise raise `KeyError("No module with reference: %s")`. -/
def getitem (b : BOARD) (key : String) : Except String Module :=
  match b.FindModuleByReference key with
  | some found => Except.ok (Module.wrap found)
  | none => Except.error ("No module with reference: " ++ key)

/-- `_ModuleList.__getitem__` in state-passing form: the same computation
with the board state threaded through, to make the absence of side effects
explicit.  The method only reads the board. -/
def getitemSt (b : BOARD) (key : String) : Except String Module × BOARD :=
  match b.FindModuleByReference key with
  | some found => (Except.ok (Module.wrap found), b)
  | none => (Except.error ("No module with reference: " ++ key), b)

/-- `_ModuleList.__iter__`: one full run of the generator, yielding each
module of `GetModules()` freshly wrapped, in placement order. -/
def iter (b : BOARD) : List Module :=
  b.GetModules.map Module.wrap

/-- `_ModuleList.__len__`: `GetModules().GetCount()`. -/
def len (b : BOARD) : Nat :=
  b.GetModules.length

end ModuleList

/-- Iterator state for `_ModuleList.__iter__`: the generator's remaining
suffix of the module list it traverses. -/
structure ModuleIter where
  remaining : List MODULE
deriving DecidableEq, Repr

/-- A fresh call to `_ModuleList.__iter__` begins a new traversal of
`GetModules()` from the start. -/
def ModuleList.iterFresh (b : BOARD) : ModuleIter :=
  ⟨b.GetModules⟩

/-- One step of the generator: yield the next wrapped module, or stop. -/
def ModuleIter.next (it : ModuleIter) : Option (Module × ModuleIter) :=
  match it.remaining with
  | [] => none
  | m :: rest => some (Module.wrap m, ⟨rest⟩)

/-- Exhaust the generator, collecting every element it yields. -/
def ModuleIter.run : ModuleIter → List Module
  | ⟨[]⟩ => []
  | ⟨m :: rest⟩ => Module.wrap m :: ModuleIter.run ⟨rest⟩

namespace Board

/-- `Board.moduleByRef`: returns the wrapped module with reference `ref`,
or `None` (Python's implicit return) when there is no such module. -/
def moduleByRef (b : BOARD) (ref : String) : Option Module :=
  match b.FindModuleByReference ref with
  | some found => some (Module.wrap found)
  | none => none

/-- `Board.add_module`: create a new module on the board.  The
`module.Module(ref, pos, board=self)` constructor is absent from the given
sources; modelled from the spec as placing the module on the board. -/
def add_module (b : BOARD) (ref : String) (pos : ℚ × ℚ) : BOARD :=
  b.placeModule ⟨ref, pos⟩

/-- `Board.default_width`: engine current track width divided by
`units.DEFAULT_UNIT_IUS`. -/
def default_width (b : BOARD) : ℚ :=
  b.settings.currentTrackWidth / DEFAULT_UNIT_IUS

/-- `Board.default_via_size`: engine current via size divided by
`units.DEFAULT_UNIT_IUS`. -/
def default_via_size (b : BOARD) : ℚ :=
  b.settings.currentViaSize / DEFAULT_UNIT_IUS

/-- `Board.default_via_drill`: engine current via drill divided by
`units.DEFAULT_UNIT_IUS` when positive, otherwise the literal fallback
`0.2`. -/
def default_via_drill (b : BOARD) : ℚ :=
  let via_drill := b.settings.currentViaDrill
  if via_drill > 0 then via_drill / DEFAULT_UNIT_IUS else 0.2

/-- Python's `width or self.default_width` on an optional float argument:
`None` and `0.0` are falsy, any other float is returned as is. -/
def pyOrWidth (w : Option ℚ) (d : ℚ) : ℚ :=
  match w with
  | none => d
  | some x => if x = 0 then d else x

/-- `Board.add_track_segment`: build a `Track(width or default_width,
start, end, layer)` and `Add` it to the board. -/
def add_track_segment (b : BOARD) (s e : ℚ × ℚ) (layer : String)
    (width : Option ℚ) : BOARD :=
  { b with tracks := b.tracks ++ [⟨pyOrWidth width (default_width b), s, e, layer⟩] }

/-- `Board.add_track`: for each `n` in `range(len(coords) - 1)`, add a
segment from `coords[n]` to `coords[n + 1]`. -/
def add_track (b : BOARD) (coords : List (ℚ × ℚ)) (layer : String)
    (width : Option ℚ) : BOARD :=
  (List.range (coords.length - 1)).foldl
    (fun acc n =>
      add_track_segment acc (coords.getD n (0, 0)) (coords.getD (n + 1) (0, 0))
        layer width)
    b

/-- `Board.add_line`: build a `drawing.Segment(start, end, layer, width)`
and `Add` it to the board. -/
def add_line (b : BOARD) (s e : ℚ × ℚ) (layer : String) (width : ℚ) : BOARD :=
  { b with drawings := b.drawings ++ [⟨s, e, layer, width⟩] }

/-- `Board.add_polyline`: for each `n` in `range(len(coords) - 1)`, add a
graphic line from `coords[n]` to `coords[n + 1]`. -/
def add_polyline (b : BOARD) (coords : List (ℚ × ℚ)) (layer : String)
    (width : ℚ) : BOARD :=
  (List.range (coords.length - 1)).foldl
    (fun acc n =>
      add_line acc (coords.getD n (0, 0)) (coords.getD (n + 1) (0, 0))
        layer width)
    b

end Board

/-- Example design settings for concrete boards used in witnesses. -/
def exampleSettings : DesignSettings := ⟨250000, 600000, 400000⟩

/-- A board with no modules. -/
def emptyB : BOARD := ⟨[], [], [], exampleSettings⟩

/-- A board holding one module, "R1". -/
def oneB : BOARD := ⟨[⟨"R1", (0, 0)⟩], [], [], exampleSettings⟩

/-- The spec's scenario board: modules "R1", "C1", "U1" added in that
order. -/
def scenarioB : BOARD :=
  Board.add_module
    (Board.add_module (Board.add_module emptyB "R1" (0, 0)) "C1" (0, 0))
    "U1" (0, 0)

/-- A board whose engine-side current via drill is zero. -/
def drillZeroB : BOARD := ⟨[], [], [], ⟨250000, 600000, 0⟩⟩

/-- Exhausting an iterator over `l` yields exactly the wrapped elements
of `l`. -/
lemma ModuleIter.run_mk (l : List MODULE) :
    ModuleIter.run ⟨l⟩ = l.map Module.wrap := by
  induction l with
  | nil => simp [ModuleIter.run]
  | cons m t ih => simp [ModuleIter.run, ih]

/-- C1: for every reference R carried by no module on the board, the keyed
lookup `_ModuleList.__getitem__` fails with the KeyError (`NotFoundError`
equivalent) rather than returning a value. -/
theorem lookup_absent_fails (b : BOARD) (R : String)
    (h : ∀ m ∈ b.modules, m.reference ≠ R) :
    ∃ msg, ModuleList.getitem b R = Except.error msg := by
  have hn : b.FindModuleByReference R = none :=
    List.find?_eq_none.mpr (fun m hm => by simpa using h m hm)
  exact ⟨"No module with reference: " ++ R, by simp [ModuleList.getitem, hn]⟩

/-- Witness for C1 at a concrete input: the empty board has no module "R1"
and lookup fails. -/
theorem lookup_absent_fails_witness :
    (∀ m ∈ emptyB.modules, m.reference ≠ "R1")
      ∧ ∃ msg, ModuleList.getitem emptyB "R1" = Except.error msg :=
  ⟨by decide, lookup_absent_fails emptyB "R1" (by decide)⟩

/-- C2: for every reference R of a module present on the board, lookup
returns a wrapped Module whose reference equals R. -/
theorem lookup_present_ref (b : BOARD) (R : String)
    (h : ∃ m ∈ b.modules, m.reference = R) :
    ∃ mod, ModuleList.getitem b R = Except.ok mod ∧ Module.reference mod = R := by
  obtain ⟨m, hm, hr⟩ := h
  have hs : (b.modules.find? (fun m => m.reference == R)).isSome :=
    List.find?_isSome.mpr ⟨m, hm, by simp [hr]⟩
  obtain ⟨m', hm'⟩ := Option.isSome_iff_exists.mp hs
  have hp := List.find?_some hm'
  simp only [beq_iff_eq] at hp
  refine ⟨Module.wrap m', ?_, ?_⟩
  · simp [ModuleList.getitem, BOARD.FindModuleByReference, hm']
  · simpa [Module.wrap, Module.reference] using hp

/-- Witness for C2 at a concrete input: "R1" is present on `oneB` and
lookup returns a module with that reference. -/
theorem lookup_present_ref_witness :
    (∃ m ∈ oneB.modules, m.reference = "R1")
      ∧ ∃ mod, ModuleList.getitem oneB "R1" = Except.ok mod
          ∧ Module.reference mod = "R1" :=
  ⟨by decide, lookup_present_ref oneB "R1" (by decide)⟩

/-- C3: on every board state, `__len__` equals the number of elements one
full run of `__iter__` produces on that same state; both are computed
fresh from the board, with no cache to disagree with. -/
theorem size_eq_iter_count (b : BOARD) :
    ModuleList.len b = (ModuleList.iter b).length := by
  simp [ModuleList.len, ModuleList.iter]

/-- C4: a board with zero modules iterates to zero elements and has
size 0. -/
theorem empty_board_iter_len (b : BOARD) (h : b.modules = []) :
    ModuleList.iter b = [] ∧ ModuleList.len b = 0 := by
  constructor <;> simp [ModuleList.iter, ModuleList.len, BOARD.GetModules, h]

/-- Witness for C4 at a concrete input: the empty board. -/
theorem empty_board_iter_len_witness :
    emptyB.modules = [] ∧ ModuleList.iter emptyB = [] ∧ ModuleList.len emptyB = 0 :=
  ⟨rfl, (empty_board_iter_len emptyB rfl).1, (empty_board_iter_len emptyB rfl).2⟩

/-- C5: two fresh iterators over the same unmutated board run to the same
modules in the same order; each fresh run is a complete finite traversal,
of length equal to `__len__`. -/
theorem iterate_stable_restartable (b : BOARD) (i₁ i₂ : ModuleIter)
    (h₁ : i₁ = ModuleList.iterFresh b) (h₂ : i₂ = ModuleList.iterFresh b) :
    i₁.run = i₂.run ∧ i₁.run = ModuleList.iter b
      ∧ i₁.run.length = ModuleList.len b := by
  subst h₁; subst h₂
  refine ⟨rfl, ?_, ?_⟩ <;>
    simp [ModuleList.iterFresh, ModuleIter.run_mk, ModuleList.iter, ModuleList.len]

/-- Witness for C5 at a concrete input: two fresh iterators over `oneB`. -/
theorem iterate_stable_restartable_witness :
    ModuleList.iterFresh oneB = ModuleList.iterFresh oneB
      ∧ ((ModuleList.iterFresh oneB).run = (ModuleList.iterFresh oneB).run
        ∧ (ModuleList.iterFresh oneB).run = ModuleList.iter oneB
        ∧ (ModuleList.iterFresh oneB).run.length = ModuleList.len oneB) :=
  ⟨rfl, iterate_stable_restartable oneB _ _ rfl rfl⟩

/-- C6: on the board with "R1", "C1", "U1" added in that order, iteration
yields them in placement order (module values, not keys), lookup "C1"
returns the module added second, lookup "Q1" fails, and the size is 3. -/
theorem scenario_R1_C1_U1 :
    ModuleList.iter scenarioB =
        [Module.wrap ⟨"R1", (0, 0)⟩, Module.wrap ⟨"C1", (0, 0)⟩,
          Module.wrap ⟨"U1", (0, 0)⟩]
      ∧ ModuleList.getitem scenarioB "C1" = Except.ok (Module.wrap ⟨"C1", (0, 0)⟩)
      ∧ ModuleList.getitem scenarioB "Q1" =
          Except.error "No module with reference: Q1"
      ∧ ModuleList.len scenarioB = 3 :=
  ⟨rfl, rfl, rfl, rfl⟩

/-- C7: the keyed lookup has no side effects: in state-passing form it
returns the board unchanged (modules, tracks, drawings and design settings
included), whether it succeeds or fails, and its result is the lookup's. -/
theorem lookup_no_side_effects (b : BOARD) (key : String) :
    (ModuleList.getitemSt b key).2 = b
      ∧ (ModuleList.getitemSt b key).1 = ModuleList.getitem b key := by
  cases h : b.FindModuleByReference key <;>
    simp [ModuleList.getitemSt, ModuleList.getitem, h]

/-- C9: `Board.moduleByRef` returns `None` rather than raising when the
reference is absent, and a wrapped module with that reference when
present. -/
theorem moduleByRef_total_lookup (b : BOARD) (R : String) :
    ((∀ m ∈ b.modules, m.reference ≠ R) → Board.moduleByRef b R = none)
      ∧ ((∃ m ∈ b.modules, m.reference = R) →
          ∃ mod, Board.moduleByRef b R = some mod ∧ Module.reference mod = R) := by
  constructor
  · intro h
    have hn : b.FindModuleByReference R = none :=
      List.find?_eq_none.mpr (fun m hm => by simpa using h m hm)
    simp [Board.moduleByRef, hn]
  · intro h
    obtain ⟨m, hm, hr⟩ := h
    have hs : (b.modules.find? (fun m => m.reference == R)).isSome :=
      List.find?_isSome.mpr ⟨m, hm, by simp [hr]⟩
    obtain ⟨m', hm'⟩ := Option.isSome_iff_exists.mp hs
    have hp := List.find?_some hm'
    simp only [beq_iff_eq] at hp
    refine ⟨Module.wrap m', ?_, ?_⟩
    · simp [Board.moduleByRef, BOARD.FindModuleByReference, hm']
    · simpa [Module.wrap, Module.reference] using hp

/-- Witness for C9 at concrete inputs: "Q1" absent from `oneB` gives
`none`; "R1" present gives a module with reference "R1". -/
theorem moduleByRef_total_lookup_witness :
    ((∀ m ∈ oneB.modules, m.reference ≠ "Q1") ∧ Board.moduleByRef oneB "Q1" = none)
      ∧ ((∃ m ∈ oneB.modules, m.reference = "R1")
        ∧ ∃ mod, Board.moduleByRef oneB "R1" = some mod
            ∧ Module.reference mod = "R1") :=
  ⟨⟨by decide, (moduleByRef_total_lookup oneB "Q1").1 (by decide)⟩,
   ⟨by decide, (moduleByRef_total_lookup oneB "R1").2 (by decide)⟩⟩

/-- C8 counterexample: with the engine's current via drill at zero,
`default_via_drill` returns the fallback `0.2` mm, not the engine value
divided by the conversion constant — so not every design-settings query
delegates verbatim with only a unit conversion. -/
theorem via_drill_not_verbatim :
    Board.default_via_drill drillZeroB
      ≠ drillZeroB.settings.currentViaDrill / DEFAULT_UNIT_IUS := by
  simp [Board.default_via_drill, drillZeroB]
  norm_num

/-- C8 amended: the track-width and via-size queries return the engine
value divided by the internal-units-per-millimeter constant; the via-drill
query does so only when the engine value is positive, and otherwise
returns the fixed fallback 0.2 mm. -/
theorem design_settings_delegation (b : BOARD) :
    Board.default_width b = b.settings.currentTrackWidth / DEFAULT_UNIT_IUS
      ∧ Board.default_via_size b = b.settings.currentViaSize / DEFAULT_UNIT_IUS
      ∧ (0 < b.settings.currentViaDrill →
          Board.default_via_drill b = b.settings.currentViaDrill / DEFAULT_UNIT_IUS)
      ∧ (¬ 0 < b.settings.currentViaDrill → Board.default_via_drill b = 0.2) := by
  refine ⟨rfl, rfl, ?_, ?_⟩ <;> intro h <;> simp [Board.default_via_drill, h]

/-- Witness for C8 (amended) at a concrete input: `emptyB` has a positive
via drill, so the delegation branch applies. -/
theorem design_settings_delegation_witness :
    (0 < emptyB.settings.currentViaDrill)
      ∧ Board.default_via_drill emptyB
          = emptyB.settings.currentViaDrill / DEFAULT_UNIT_IUS :=
  ⟨by norm_num [emptyB, exampleSettings],
   (design_settings_delegation emptyB).2.2.1 (by norm_num [emptyB, exampleSettings])⟩

/-- Folding `add_track_segment` over the index list appends exactly one
track per index, each built from the starting board's default width (the
design settings are never modified by the fold). -/
lemma add_track_foldl (coords : List (ℚ × ℚ)) (layer : String) (width : Option ℚ) :
    ∀ (L : List Nat) (b : BOARD),
      ((L.foldl
          (fun acc n =>
            Board.add_track_segment acc (coords.getD n (0, 0))
              (coords.getD (n + 1) (0, 0)) layer width) b).tracks
        = b.tracks ++ L.map (fun n =>
            ⟨Board.pyOrWidth width (Board.default_width b), coords.getD n (0, 0),
              coords.getD (n + 1) (0, 0), layer⟩))
      ∧ (L.foldl
          (fun acc n =>
            Board.add_track_segment acc (coords.getD n (0, 0))
              (coords.getD (n + 1) (0, 0)) layer width) b).settings = b.settings := by
  intro L
  induction L with
  | nil => intro b; simp
  | cons m t ih =>
    intro b
    obtain ⟨h1, h2⟩ := ih
      (Board.add_track_segment b (coords.getD m (0, 0))
        (coords.getD (m + 1) (0, 0)) layer width)
    constructor
    · rw [List.foldl_cons, h1]
      simp [Board.add_track_segment, Board.default_width]
    · rw [List.foldl_cons, h2]
      rfl

/-- Folding `add_line` over the index list appends exactly one drawing per
index. -/
lemma add_polyline_foldl (coords : List (ℚ × ℚ)) (layer : String) (w : ℚ) :
    ∀ (L : List Nat) (b : BOARD),
      (L.foldl
          (fun acc n =>
            Board.add_line acc (coords.getD n (0, 0))
              (coords.getD (n + 1) (0, 0)) layer w) b).drawings
        = b.drawings ++ L.map (fun n =>
            ⟨coords.getD n (0, 0), coords.getD (n + 1) (0, 0), layer, w⟩) := by
  intro L
  induction L with
  | nil => intro b; simp
  | cons m t ih =>
    intro b
    rw [List.foldl_cons, ih]
    simp [Board.add_line]

/-- C10: with fewer than two coordinates, `add_track` and `add_polyline`
leave the board unchanged; in general they append one segment per
consecutive coordinate pair — `len(coords) - 1` segments, the n-th from
`coords[n]` to `coords[n+1]`. -/
theorem add_track_polyline_segments (b : BOARD) (coords : List (ℚ × ℚ))
    (layer₁ layer₂ : String) (width : Option ℚ) (w : ℚ) :
    (coords.length < 2 →
        Board.add_track b coords layer₁ width = b
          ∧ Board.add_polyline b coords layer₂ w = b)
      ∧ (Board.add_track b coords layer₁ width).tracks
          = b.tracks ++ (List.range (coords.length - 1)).map (fun n =>
              ⟨Board.pyOrWidth width (Board.default_width b), coords.getD n (0, 0),
                coords.getD (n + 1) (0, 0), layer₁⟩)
      ∧ (Board.add_polyline b coords layer₂ w).drawings
          = b.drawings ++ (List.range (coords.length - 1)).map (fun n =>
              ⟨coords.getD n (0, 0), coords.getD (n + 1) (0, 0), layer₂, w⟩)
      ∧ (Board.add_track b coords layer₁ width).tracks.length
          = b.tracks.length + (coords.length - 1)
      ∧ (Board.add_polyline b coords layer₂ w).drawings.length
          = b.drawings.length + (coords.length - 1) := by
  refine ⟨?_, ?_, ?_, ?_, ?_⟩
  · intro h
    have hz : coords.length - 1 = 0 := by omega
    constructor <;> simp [Board.add_track, Board.add_polyline, hz]
  · exact (add_track_foldl coords layer₁ width (List.range (coords.length - 1)) b).1
  · exact add_polyline_foldl coords layer₂ w (List.range (coords.length - 1)) b
  · rw [Board.add_track,
      (add_track_foldl coords layer₁ width (List.range (coords.length - 1)) b).1]
    simp
  · rw [Board.add_polyline,
      add_polyline_foldl coords layer₂ w (List.range (coords.length - 1)) b]
    simp

/-- Witness for C10 at a concrete input: a one-coordinate list leaves the
board unchanged under both operations. -/
theorem add_track_polyline_segments_witness :
    ([((0 : ℚ), (0 : ℚ))].length < 2)
      ∧ Board.add_track emptyB [((0 : ℚ), (0 : ℚ))] "F.Cu" none = emptyB
      ∧ Board.add_polyline emptyB [((0 : ℚ), (0 : ℚ))] "F.SilkS" (3 / 20) = emptyB :=
  ⟨by decide,
   (add_track_polyline_segments emptyB [((0 : ℚ), (0 : ℚ))] "F.Cu" "F.SilkS"
      none (3 / 20)).1 (by decide) |>.1,
   (add_track_polyline_segments emptyB [((0 : ℚ), (0 : ℚ))] "F.Cu" "F.SilkS"
      none (3 / 20)).1 (by decide) |>.2⟩

end KicadPcb
